import Mathlib

/-!
Verification of the `rob` crate: `Rob<'a, T>`, a container holding either a
borrowed reference or an owned `Box<T>`, represented as a raw pointer plus an
ownership flag (`src/lib.rs`).

The embedding models the heap explicitly: a `Heap α` is an association list
from addresses (`Nat`, nonzero for live allocations, mirroring `NonNull`) to
live values of type `α`, together with a fresh-address counter and a teardown
counter.  The teardown counter models the `DROP_COUNT` instrumentation of
`src/tests.rs`: every release of a live value (`Box::from_raw` followed by the
box being dropped) increments it by one.  Freeing an address that is not live
is undefined behaviour in the source and is modelled as the error result
`none`.  A `Rob` is exactly the struct of the source: a pointer and a flag
(the `PhantomData` markers carry no run-time data and are omitted).  Rust
operations that can only go wrong by touching a dead address return `Option`.
-/

namespace RobModel

/-- The heap: live cells as an association list from addresses to values,
the next fresh address, and the count of value teardowns run so far
(the model of the test suite's `DROP_COUNT`). -/
structure Heap (α : Type) where
  mem : List (Nat × α)
  next : Nat
  dropCount : Nat
deriving Repr, DecidableEq

/-- Reading the value stored at address `p`, if `p` is live. -/
def Heap.read {α : Type} (h : Heap α) (p : Nat) : Option α :=
  h.mem.lookup p

/-- `Box::new(v)` / allocation: stores `v` at the fresh address and returns
the new heap together with that address. -/
def Heap.alloc {α : Type} (h : Heap α) (v : α) : Heap α × Nat :=
  (⟨(h.next, v) :: h.mem, h.next + 1, h.dropCount⟩, h.next)

/-- `drop(Box::from_raw(p))` / release: removes the cell at `p` and runs the
value's teardown (the teardown counter goes up by one).  Releasing an address
that is not live is undefined behaviour, modelled as `none`. -/
def Heap.free {α : Type} (h : Heap α) (p : Nat) : Option (Heap α) :=
  match h.mem.lookup p with
  | some _ => some ⟨h.mem.filter (fun c => c.1 != p), h.next, h.dropCount + 1⟩
  | none => none

/-- Well-formedness: every live address is below the fresh-address counter,
so allocation never reuses a live address. -/
def Heap.wf {α : Type} (h : Heap α) : Prop :=
  ∀ c ∈ h.mem, c.1 < h.next

instance {α : Type} (h : Heap α) : Decidable h.wf := by
  unfold Heap.wf; infer_instance

/-- The empty heap.  Addresses start at 1: address 0 plays the role of the
null pointer, which `NonNull` rules out. -/
def Heap.empty {α : Type} : Heap α := ⟨[], 1, 0⟩

/-- The `Rob` struct of the source: a pointer and an ownership flag.
The two `PhantomData` markers hold no data and are omitted. -/
structure Rob where
  ptr : Nat
  is_owned : Bool
deriving Repr, DecidableEq

namespace Rob

/-- `Rob::from_ref(r)`: stores the address of the referent, flag `false`. -/
def from_ref (p : Nat) : Rob := ⟨p, false⟩

/-- `Rob::from_box(b)`: `Box::into_raw` yields the box's allocation address,
which is stored with flag `true`.  A `Box<T>` is modelled by the address of
its allocation. -/
def from_box (b : Nat) : Rob := ⟨b, true⟩

/-- `Rob::from_value(v)`: `Box::new(value)` then `from_box`. -/
def from_value {α : Type} (h : Heap α) (v : α) : Heap α × Rob :=
  let a := h.alloc v
  (a.1, from_box a.2)

/-- `Rob::from_raw(ptr, is_owned)`: rebuilds the struct from its raw parts. -/
def from_raw (p : Nat) (f : Bool) : Rob := ⟨p, f⟩

/-- `Rob::into_raw(this)`: returns the pointer and the flag; `mem::forget`
suppresses the destructor, so the heap is untouched (the function does not
even take the heap). -/
def into_raw (r : Rob) : Nat × Bool := (r.ptr, r.is_owned)

/-- `Rob::as_ref(this)`: `Some` reference (modelled by its address, valid for
the external lifetime) when the value is not owned, `None` otherwise. -/
def as_ref (r : Rob) : Option Nat :=
  if r.is_owned then none else some r.ptr

/-- `Deref for Rob`: reads the value behind the pointer. -/
def deref {α : Type} (h : Heap α) (r : Rob) : Option α :=
  h.read r.ptr

/-- `Drop for Rob`: if the flag is set, release the allocation
(`Box::from_raw` and drop); otherwise do nothing. -/
def drop {α : Type} (h : Heap α) (r : Rob) : Option (Heap α) :=
  if r.is_owned then h.free r.ptr else some h

/-- `Rob::into_box(this)`: if owned, `mem::forget(this)` and reclaim the
very same allocation as a `Box` (heap untouched); if borrowed, clone the
referent (`to_owned`, modelled by the parameter `toOwned`) into a fresh
allocation.  Returns the new heap and the box's address. -/
def into_box {α : Type} (toOwned : α → α) (h : Heap α) (r : Rob) :
    Option (Heap α × Nat) :=
  if r.is_owned then some (h, r.ptr)
  else (h.read r.ptr).map (fun v => h.alloc (toOwned v))

/-- `Rob::to_mut(this)`: if borrowed, clone the referent into a fresh
allocation, point `this` at the clone and set the flag (copy-on-write);
then hand out the (now mutable) pointer.  Returns the new heap, the updated
struct and the address the returned `&mut T` points at. -/
def to_mut {α : Type} (toOwned : α → α) (h : Heap α) (r : Rob) :
    Option (Heap α × Rob × Nat) :=
  if r.is_owned then some (h, r, r.ptr)
  else (h.read r.ptr).map (fun v =>
    let a := h.alloc (toOwned v)
    (a.1, ⟨a.2, true⟩, a.2))

/-- `Clone for Rob`: if owned, `from_value((**self).clone())` — a fresh
allocation holding the clone of the value; if borrowed, `from_ref` of the
same referent — no allocation, no copy. -/
def clone {α : Type} (tclone : α → α) (h : Heap α) (r : Rob) :
    Option (Heap α × Rob) :=
  if r.is_owned then (h.read r.ptr).map (fun v => from_value h (tclone v))
  else some (h, from_ref r.ptr)

/-- `PartialEq::eq for Rob`: forwards to `T::eq` on the two referents. -/
def eq {α : Type} (teq : α → α → Bool) (h : Heap α) (a b : Rob) :
    Option Bool :=
  (deref h a).bind (fun va => (deref h b).map (fun vb => teq va vb))

/-- `PartialEq::ne for Rob`: forwards to `T::ne` on the two referents
(not defined as the negation of `eq`). -/
def ne {α : Type} (tne : α → α → Bool) (h : Heap α) (a b : Rob) :
    Option Bool :=
  (deref h a).bind (fun va => (deref h b).map (fun vb => tne va vb))

/-- `PartialOrd::partial_cmp for Rob`: forwards to `T::partial_cmp`. -/
def partial_cmp {α : Type} (tcmp : α → α → Option Ordering) (h : Heap α)
    (a b : Rob) : Option (Option Ordering) :=
  (deref h a).bind (fun va => (deref h b).map (fun vb => tcmp va vb))

/-- `Hash for Rob`: forwards to `T::hash` on the referent (a value's hash is
modelled by the data it feeds to the hasher). -/
def hash {α : Type} (thash : α → List Nat) (h : Heap α) (r : Rob) :
    Option (List Nat) :=
  (deref h r).map thash

end Rob

/-- `Vec<T>`, modelled by the address of its backing allocation, which holds
the element sequence. -/
structure Vec where
  buf : Nat
deriving Repr, DecidableEq

/-- `String`, modelled by the address of its backing text buffer. -/
structure RString where
  buf : Nat
deriving Repr, DecidableEq

/-- `CString`, modelled by the address of its backing buffer. -/
structure RCString where
  buf : Nat
deriving Repr, DecidableEq

/-- `OsString`, modelled by the address of its backing buffer. -/
structure ROsString where
  buf : Nat
deriving Repr, DecidableEq

/-- `PathBuf`, modelled by the address of its backing buffer. -/
structure RPathBuf where
  buf : Nat
deriving Repr, DecidableEq

/-- `Cow<'a, T>`: either a borrowed reference (its address) or an owned
value (the address of the allocation backing the owned data). -/
inductive Cow where
  | borrowed (p : Nat)
  | owned (buf : Nat)
deriving Repr, DecidableEq

namespace Rob

/-- `From<Vec<T>> for Rob<[T]>`: `Vec::into_boxed_slice` hands over the
backing allocation (no element is copied), then `from_box`. -/
def from_vec (v : Vec) : Rob := from_box v.buf

/-- `From<String> for Rob<str>`: `String::into_boxed_str` hands over the
backing buffer, then `from_box`. -/
def from_string (s : RString) : Rob := from_box s.buf

/-- `From<CString> for Rob<CStr>`: `into_boxed_c_str` then `from_box`. -/
def from_cstring (s : RCString) : Rob := from_box s.buf

/-- `From<OsString> for Rob<OsStr>`: `into_boxed_os_str` then `from_box`. -/
def from_osstring (s : ROsString) : Rob := from_box s.buf

/-- `From<PathBuf> for Rob<Path>`: `into_boxed_path` then `from_box`. -/
def from_pathbuf (s : RPathBuf) : Rob := from_box s.buf

/-- `From<Cow<'a, T>> for Rob<'a, T>`: `Cow::Borrowed(r)` becomes
`from_ref(r)`; `Cow::Owned(o)` becomes `from_box(o.into())`, where `Into`
hands over the allocation already backing the owned data. -/
def from_cow : Cow → Rob
  | .borrowed p => from_ref p
  | .owned b => from_box b

end Rob

/-! Helper lemmas about `Heap`. -/

/-- Looking up an address after all cells at that address were filtered out
finds nothing. -/
theorem lookup_filter_self {α : Type} (l : List (Nat × α)) (p : Nat) :
    (l.filter (fun c => c.1 != p)).lookup p = none := by
  induction l with
  | nil => rfl
  | cons c t ih =>
    by_cases hc : c.1 = p
    · simp [List.filter_cons, hc, ih]
    · simp only [List.filter_cons]
      have hb : (c.1 != p) = true := by simp [hc]
      rw [hb]
      simp only [if_pos rfl, List.lookup]
      have hb2 : (p == c.1) = false := by
        simp [Ne.symm hc]
      rw [hb2]
      exact ih

/-- Filtering out the cells at one address does not change lookups at any
other address. -/
theorem lookup_filter_other {α : Type} (l : List (Nat × α)) (p q : Nat)
    (hpq : q ≠ p) :
    (l.filter (fun c => c.1 != p)).lookup q = l.lookup q := by
  induction l with
  | nil => rfl
  | cons c t ih =>
    by_cases hc : c.1 = p
    · have hb : (c.1 != p) = false := by simp [hc]
      have hq : (q == c.1) = false := by simp [hc, hpq]
      simp only [List.filter_cons, hb, List.lookup, hq]
      simpa [List.lookup, hq] using ih
    · have hb : (c.1 != p) = true := by simp [hc]
      simp only [List.filter_cons, hb, if_pos rfl, List.lookup]
      cases hqc : (q == c.1) with
      | true => rfl
      | false => exact ih

/-- A lookup at an address at least as large as every key finds nothing. -/
theorem lookup_ge_none {α : Type} (l : List (Nat × α)) (n : Nat)
    (hn : ∀ c ∈ l, c.1 < n) : l.lookup n = none := by
  induction l with
  | nil => rfl
  | cons c t ih =>
    have hc : c.1 < n := hn c (List.mem_cons_self c t)
    have hb : (n == c.1) = false := by
      simp [Nat.ne_of_gt hc]
    simp only [List.lookup, hb]
    exact ih (fun d hd => hn d (List.mem_cons_of_mem c hd))

/-- A successful lookup means the key is strictly below any upper bound on
the keys. -/
theorem lookup_some_lt {α : Type} (l : List (Nat × α)) (p n : Nat) (v : α)
    (hn : ∀ c ∈ l, c.1 < n) (hv : l.lookup p = some v) : p < n := by
  induction l with
  | nil => simp [List.lookup] at hv
  | cons c t ih =>
    cases hpc : (p == c.1) with
    | true =>
      have : p = c.1 := by simpa using hpc
      exact this ▸ hn c (List.mem_cons_self c t)
    | false =>
      simp only [List.lookup, hpc] at hv
      exact ih (fun d hd => hn d (List.mem_cons_of_mem c hd)) hv

/-- Allocation preserves heap well-formedness. -/
theorem wf_alloc {α : Type} (h : Heap α) (v : α) (hwf : h.wf) :
    (h.alloc v).1.wf := by
  intro c hc
  rcases List.mem_cons.mp hc with hc1 | hc2
  · simp [Heap.alloc, hc1]
  · exact Nat.lt_succ_of_lt (hwf c hc2)

/-- The fresh cell of an allocation reads back the stored value. -/
theorem read_alloc_self {α : Type} (h : Heap α) (v : α) :
    (h.alloc v).1.read (h.alloc v).2 = some v := by
  simp [Heap.alloc, Heap.read, List.lookup]

/-- Allocation does not disturb any address other than the fresh one. -/
theorem read_alloc_other {α : Type} (h : Heap α) (v : α) (q : Nat)
    (hq : q ≠ h.next) : (h.alloc v).1.read q = h.read q := by
  have hb : (q == h.next) = false := by simp [hq]
  simp [Heap.alloc, Heap.read, List.lookup, hb]

/-- In a well-formed heap, a live address is preserved by allocation. -/
theorem read_alloc_live {α : Type} (h : Heap α) (v w : α) (p : Nat)
    (hwf : h.wf) (hp : h.read p = some w) : (h.alloc v).1.read p = some w := by
  have hlt : p < h.next := lookup_some_lt h.mem p h.next w hwf hp
  rw [read_alloc_other h v p (Nat.ne_of_lt hlt)]
  exact hp

/-- The fresh address of a well-formed heap is not live. -/
theorem read_next_none {α : Type} (h : Heap α) (hwf : h.wf) :
    h.read h.next = none :=
  lookup_ge_none h.mem h.next hwf

/-- Freeing a live address removes the cell, keeps every other cell, and
runs exactly one teardown. -/
theorem free_spec {α : Type} (h : Heap α) (p : Nat) (v : α)
    (hp : h.read p = some v) :
    ∃ h2, h.free p = some h2 ∧ h2.read p = none ∧
      h2.dropCount = h.dropCount + 1 ∧ h2.next = h.next ∧
      (∀ q, q ≠ p → h2.read q = h.read q) := by
  refine ⟨⟨h.mem.filter (fun c => c.1 != p), h.next, h.dropCount + 1⟩, ?_, ?_, rfl, rfl, ?_⟩
  · unfold Heap.free
    rw [show h.mem.lookup p = some v from hp]
  · exact lookup_filter_self h.mem p
  · intro q hq
    exact lookup_filter_other h.mem p q hq

/-- Freeing a dead address is the error case. -/
theorem free_none {α : Type} (h : Heap α) (p : Nat)
    (hp : h.read p = none) : h.free p = none := by
  unfold Heap.free
  rw [show h.mem.lookup p = none from hp]

/-! Claim theorems. -/

/-- Claim C4: `Rob::as_ref` returns a present reference (`Some`, the address
of the referent, valid for the external lifetime) exactly when the container
is borrowed, and `None` exactly when it is owned. -/
theorem as_ref_iff (r : Rob) :
    ((Rob.as_ref r).isSome ↔ r.is_owned = false) ∧
    (Rob.as_ref r = none ↔ r.is_owned = true) ∧
    (r.is_owned = false → Rob.as_ref r = some r.ptr) := by
  unfold Rob.as_ref
  cases hr : r.is_owned <;> simp

/-- Witness for C4 at concrete containers: borrowed at address 1 gives
`some 1`, owned at address 2 gives `none`. -/
theorem as_ref_iff_witness :
    Rob.as_ref ⟨1, false⟩ = some 1 ∧ Rob.as_ref ⟨2, true⟩ = none :=
  ⟨(as_ref_iff ⟨1, false⟩).2.2 rfl, (as_ref_iff ⟨2, true⟩).2.1.mpr rfl⟩

/-- Claim C5: `Rob::from_raw` applied to the pointer/flag pair produced by
`Rob::into_raw` rebuilds a container identical to the original: the same
struct, hence the same dereferenced value and the same `is_owned` answer. -/
theorem into_raw_from_raw_roundtrip {α : Type} (h : Heap α) (r : Rob) :
    Rob.from_raw (Rob.into_raw r).1 (Rob.into_raw r).2 = r ∧
    Rob.deref h (Rob.from_raw (Rob.into_raw r).1 (Rob.into_raw r).2) =
      Rob.deref h r ∧
    (Rob.from_raw (Rob.into_raw r).1 (Rob.into_raw r).2).is_owned =
      r.is_owned :=
  ⟨rfl, rfl, rfl⟩

/-- Claim C9: every owned buffer conversion (`Vec<T>`, `String`, `CString`,
`OsString`, `PathBuf`, `Box<T>`) yields an owned container over the very same
backing allocation (no copy), and `Cow` conversion preserves the variant:
`Cow::Borrowed` gives a borrowed container over the same reference,
`Cow::Owned` an owned container over the allocation already backing the
owned data. -/
theorem conversions_spec (v : Vec) (s : RString) (c : RCString)
    (o : ROsString) (pb : RPathBuf) (q b : Nat) :
    (Rob.from_vec v = ⟨v.buf, true⟩ ∧ (Rob.from_vec v).is_owned = true) ∧
    (Rob.from_string s = ⟨s.buf, true⟩ ∧
      (Rob.from_string s).is_owned = true) ∧
    (Rob.from_cstring c = ⟨c.buf, true⟩ ∧
      (Rob.from_cstring c).is_owned = true) ∧
    (Rob.from_osstring o = ⟨o.buf, true⟩ ∧
      (Rob.from_osstring o).is_owned = true) ∧
    (Rob.from_pathbuf pb = ⟨pb.buf, true⟩ ∧
      (Rob.from_pathbuf pb).is_owned = true) ∧
    (Rob.from_box b = ⟨b, true⟩ ∧ (Rob.from_box b).is_owned = true) ∧
    (Rob.from_cow (Cow.borrowed q) = ⟨q, false⟩ ∧
      (Rob.from_cow (Cow.borrowed q)).is_owned = false) ∧
    (Rob.from_cow (Cow.owned b) = ⟨b, true⟩ ∧
      (Rob.from_cow (Cow.owned b)).is_owned = true) :=
  ⟨⟨rfl, rfl⟩, ⟨rfl, rfl⟩, ⟨rfl, rfl⟩, ⟨rfl, rfl⟩, ⟨rfl, rfl⟩, ⟨rfl, rfl⟩,
    ⟨rfl, rfl⟩, ⟨rfl, rfl⟩⟩

/-- Claim C10: `Rob`'s `ne` forwards to the value type's `ne` verbatim: for
any `tne` whatsoever (in particular one that is not the negation of any
`eq`), `Rob::ne` returns exactly `tne` of the two referents. -/
theorem ne_forwards {α : Type} (tne : α → α → Bool) (h : Heap α) (a b : Rob)
    (va vb : α) (ha : Rob.deref h a = some va)
    (hb : Rob.deref h b = some vb) :
    Rob.ne tne h a b = some (tne va vb) := by
  unfold Rob.ne
  rw [ha, hb]
  rfl

/-- Witness for C10 with a value type whose `ne` is not the negation of its
`eq`: `tne` constantly `true` on two containers holding the same value 3,
one owned and one borrowed; `Rob::ne` still answers `true`. -/
theorem ne_forwards_witness :
    Rob.deref (Heap.mk [(1, 3), (2, 3)] 3 0 : Heap Nat) (Rob.mk 1 true) =
      some 3 ∧
    Rob.deref (Heap.mk [(1, 3), (2, 3)] 3 0 : Heap Nat) (Rob.mk 2 false) =
      some 3 ∧
    Rob.ne (fun _ _ => true) (Heap.mk [(1, 3), (2, 3)] 3 0 : Heap Nat)
      (Rob.mk 1 true) (Rob.mk 2 false) = some true :=
  ⟨by decide, by decide,
    ne_forwards (fun _ _ => true) _ _ _ 3 3 (by decide) (by decide)⟩

/-- Claim C6: equality, partial ordering and hashing forward to the referents
only: two containers holding the same value, one borrowed and one owned,
compare equal, order as equivalent and hash identically — the ownership flag
plays no part. -/
theorem eq_ord_hash_forward {α : Type} (teq : α → α → Bool)
    (tcmp : α → α → Option Ordering) (thash : α → List Nat)
    (h : Heap α) (a b : Rob) (v : α)
    (ha : Rob.deref h a = some v) (hb : Rob.deref h b = some v)
    (_hown : a.is_owned = false ∧ b.is_owned = true)
    (hrefl : teq v v = true) (hcrefl : tcmp v v = some Ordering.eq) :
    Rob.eq teq h a b = some true ∧
    Rob.partial_cmp tcmp h a b = some (some Ordering.eq) ∧
    Rob.hash thash h a = Rob.hash thash h b := by
  unfold Rob.eq Rob.partial_cmp Rob.hash
  rw [ha, hb]
  simp [hrefl, hcrefl]

/-- Witness for C6: value 5 stored at address 1 (borrowed container) and at
address 2 (owned container); natural-number equality, comparison and a
one-word hash. -/
theorem eq_ord_hash_forward_witness :
    Rob.deref (Heap.mk [(1, 5), (2, 5)] 3 0 : Heap Nat) (Rob.mk 1 false) =
      some 5 ∧
    Rob.deref (Heap.mk [(1, 5), (2, 5)] 3 0 : Heap Nat) (Rob.mk 2 true) =
      some 5 ∧
    ((Rob.mk 1 false).is_owned = false ∧ (Rob.mk 2 true).is_owned = true) ∧
    Rob.eq (fun x y => x == y) (Heap.mk [(1, 5), (2, 5)] 3 0 : Heap Nat)
      (Rob.mk 1 false) (Rob.mk 2 true) = some true ∧
    Rob.partial_cmp (fun x y => some (compare x y))
      (Heap.mk [(1, 5), (2, 5)] 3 0 : Heap Nat)
      (Rob.mk 1 false) (Rob.mk 2 true) = some (some Ordering.eq) ∧
    Rob.hash (fun x => [x]) (Heap.mk [(1, 5), (2, 5)] 3 0 : Heap Nat)
      (Rob.mk 1 false) =
    Rob.hash (fun x => [x]) (Heap.mk [(1, 5), (2, 5)] 3 0 : Heap Nat)
      (Rob.mk 2 true) := by
  refine ⟨by decide, by decide, ⟨rfl, rfl⟩, ?_⟩
  have := eq_ord_hash_forward (fun x y => x == y)
    (fun x y => some (compare x y)) (fun x => [x])
    (Heap.mk [(1, 5), (2, 5)] 3 0 : Heap Nat)
    (Rob.mk 1 false) (Rob.mk 2 true) 5
    (by decide) (by decide) ⟨rfl, rfl⟩ (by decide) (by decide)
  exact ⟨this.1, this.2.1, this.2.2⟩

/-- Claim C1: `Rob::to_mut` always hands out a mutable reference to the value
and afterwards the container is owned.  On an already owned container it is
the identity: same heap, same struct, reference to the existing allocation.
On a borrowed container it clones the referent into a fresh owned allocation,
repoints the struct at the clone with flag `true`, and the original external
value is untouched: still live with the same value, and no teardown runs. -/
theorem to_mut_spec {α : Type} (toOwned : α → α) (h : Heap α) (r : Rob)
    (v : α) (hwf : h.wf) (hv : h.read r.ptr = some v) :
    (r.is_owned = true → Rob.to_mut toOwned h r = some (h, r, r.ptr)) ∧
    (r.is_owned = false →
      ∃ h2 r2, Rob.to_mut toOwned h r = some (h2, r2, r2.ptr) ∧
        r2.is_owned = true ∧
        h2.read r2.ptr = some (toOwned v) ∧
        h2.read r.ptr = some v ∧
        h2.dropCount = h.dropCount) := by
  constructor
  · intro ho
    simp [Rob.to_mut, ho]
  · intro ho
    refine ⟨(h.alloc (toOwned v)).1, ⟨(h.alloc (toOwned v)).2, true⟩,
      ?_, rfl, ?_, ?_, rfl⟩
    · simp [Rob.to_mut, ho, hv]
    · exact read_alloc_self h (toOwned v)
    · exact read_alloc_live h (toOwned v) v r.ptr hwf hv

/-- Witness for C1: the heap holds 5 at address 1; upgrading a borrowed
container at address 1 allocates the clone at address 2, flag becomes
`true`, the cell at address 1 still holds 5, and no teardown ran. -/
theorem to_mut_spec_witness :
    (Heap.mk [(1, (5 : Nat))] 2 0).wf ∧
    (Heap.mk [(1, (5 : Nat))] 2 0).read 1 = some 5 ∧
    ∃ h2 r2,
      Rob.to_mut id (Heap.mk [(1, (5 : Nat))] 2 0) (Rob.mk 1 false) =
        some (h2, r2, r2.ptr) ∧
      r2.is_owned = true ∧
      h2.read r2.ptr = some (id 5) ∧
      h2.read 1 = some 5 ∧
      h2.dropCount = 0 :=
  ⟨by decide, by decide,
    (to_mut_spec id (Heap.mk [(1, (5 : Nat))] 2 0) (Rob.mk 1 false) 5
      (by decide) (by decide)).2 rfl⟩

/-- Claim C2: `Rob::into_box` yields one owned box.  Owned container: the
existing allocation is handed over as is — no clone, heap unchanged — and
consuming the box afterwards runs teardown exactly once (never twice).
Borrowed container: the referent is cloned into a fresh allocation (the
original cell is untouched and no teardown runs at conversion), and
consuming first the box and then the original external value runs teardown
exactly twice. -/
theorem into_box_spec {α : Type} (toOwned : α → α) (h : Heap α) (r : Rob)
    (v : α) (hwf : h.wf) (hv : h.read r.ptr = some v) :
    (r.is_owned = true →
      Rob.into_box toOwned h r = some (h, r.ptr) ∧
      ∃ h2, h.free r.ptr = some h2 ∧ h2.dropCount = h.dropCount + 1) ∧
    (r.is_owned = false →
      ∃ h2 b, Rob.into_box toOwned h r = some (h2, b) ∧
        b ≠ r.ptr ∧
        h2.read b = some (toOwned v) ∧
        h2.read r.ptr = some v ∧
        h2.dropCount = h.dropCount ∧
        ∃ h3 h4, h2.free b = some h3 ∧ h3.free r.ptr = some h4 ∧
          h4.dropCount = h.dropCount + 2) := by
  constructor
  · intro ho
    refine ⟨by simp [Rob.into_box, ho], ?_⟩
    obtain ⟨h2, hfree, hnone, hcnt, -, -⟩ := free_spec h r.ptr v hv
    exact ⟨h2, hfree, hcnt⟩
  · intro ho
    have hlt : r.ptr < h.next := lookup_some_lt h.mem r.ptr h.next v hwf hv
    refine ⟨(h.alloc (toOwned v)).1, h.next, ?_, Nat.ne_of_gt hlt, ?_, ?_,
      rfl, ?_⟩
    · simp [Rob.into_box, ho, hv, Heap.alloc]
    · exact read_alloc_self h (toOwned v)
    · exact read_alloc_live h (toOwned v) v r.ptr hwf hv
    · obtain ⟨h3, hfree3, -, hcnt3, -, hpres3⟩ :=
        free_spec (h.alloc (toOwned v)).1 h.next (toOwned v)
          (read_alloc_self h (toOwned v))
      have hr3 : h3.read r.ptr = some v := by
        rw [hpres3 r.ptr (Nat.ne_of_lt hlt)]
        exact read_alloc_live h (toOwned v) v r.ptr hwf hv
      obtain ⟨h4, hfree4, -, hcnt4, -, -⟩ := free_spec h3 r.ptr v hr3
      refine ⟨h3, h4, hfree3, hfree4, ?_⟩
      rw [hcnt4, hcnt3]
      rfl

/-- Witness for C2, borrowed case: value 7 lives at address 1 externally; the
conversion clones it to address 2; freeing the box and then the external
value counts two teardowns. -/
theorem into_box_spec_witness :
    (Heap.mk [(1, (7 : Nat))] 2 0).wf ∧
    (Heap.mk [(1, (7 : Nat))] 2 0).read 1 = some 7 ∧
    ∃ h2 b,
      Rob.into_box id (Heap.mk [(1, (7 : Nat))] 2 0) (Rob.mk 1 false) =
        some (h2, b) ∧
      b ≠ 1 ∧
      h2.read b = some (id 7) ∧
      h2.read 1 = some 7 ∧
      h2.dropCount = 0 ∧
      ∃ h3 h4, h2.free b = some h3 ∧ h3.free 1 = some h4 ∧
        h4.dropCount = 0 + 2 :=
  ⟨by decide, by decide,
    (into_box_spec id (Heap.mk [(1, (7 : Nat))] 2 0) (Rob.mk 1 false) 7
      (by decide) (by decide)).2 rfl⟩

/-- Claim C3: the destructor releases the allocation exactly once when the
ownership flag is true (teardown count goes up by one, the cell is gone, and
a second release of the same address is the error case — no double free) and
does nothing at all when the flag is false.  `Rob::into_raw` never touches
the heap (`mem::forget` suppresses the destructor), and `Rob::into_box` on an
owned container hands the allocation over with the heap unchanged, so the
transferred allocation is not released by the container. -/
theorem drop_spec {α : Type} (h : Heap α) (r : Rob) (v : α)
    (hv : h.read r.ptr = some v) :
    (r.is_owned = false → Rob.drop h r = some h) ∧
    (r.is_owned = true →
      ∃ h2, Rob.drop h r = some h2 ∧
        h2.dropCount = h.dropCount + 1 ∧
        h2.read r.ptr = none ∧
        h2.free r.ptr = none ∧
        (∀ q, q ≠ r.ptr → h2.read q = h.read q)) ∧
    (Rob.into_raw r = (r.ptr, r.is_owned)) ∧
    (∀ toOwned : α → α, r.is_owned = true →
      Rob.into_box toOwned h r = some (h, r.ptr)) := by
  refine ⟨?_, ?_, rfl, ?_⟩
  · intro ho
    simp [Rob.drop, ho]
  · intro ho
    obtain ⟨h2, hfree, hnone, hcnt, -, hpres⟩ := free_spec h r.ptr v hv
    exact ⟨h2, by simp [Rob.drop, ho, hfree], hcnt, hnone,
      free_none h2 r.ptr hnone, hpres⟩
  · intro toOwned ho
    simp [Rob.into_box, ho]

/-- Witness for C3: an owned container over the cell 1 ↦ 9; dropping it
frees the cell, bumps the teardown count to 1, and a second free of
address 1 is the error case. -/
theorem drop_spec_witness :
    (Heap.mk [(1, (9 : Nat))] 2 0).read 1 = some 9 ∧
    ∃ h2,
      Rob.drop (Heap.mk [(1, (9 : Nat))] 2 0) (Rob.mk 1 true) = some h2 ∧
      h2.dropCount = 0 + 1 ∧
      h2.read 1 = none ∧
      h2.free 1 = none ∧
      (∀ q, q ≠ 1 → h2.read q = (Heap.mk [(1, (9 : Nat))] 2 0).read q) :=
  ⟨by decide,
    (drop_spec (Heap.mk [(1, (9 : Nat))] 2 0) (Rob.mk 1 true) 9
      (by decide)).2.1 rfl⟩

/-- Claim C7: `Clone for Rob` by state.  The clone's ownership flag always
equals the original's.  Borrowed: the clone references the same external
source, with no allocation and no copy (same pointer, heap unchanged).
Owned: the clone holds the value's clone in a fresh allocation (a different
pointer), the original cell is untouched, no teardown runs, and whenever the
value's clone preserves the value the clone dereferences to an equal
value. -/
theorem clone_spec {α : Type} (tclone : α → α) (h : Heap α) (r : Rob)
    (v : α) (hwf : h.wf) (hv : h.read r.ptr = some v) :
    ∃ h2 r2, Rob.clone tclone h r = some (h2, r2) ∧
      r2.is_owned = r.is_owned ∧
      (r.is_owned = false →
        h2 = h ∧ r2.ptr = r.ptr ∧ Rob.deref h2 r2 = some v) ∧
      (r.is_owned = true →
        r2.ptr ≠ r.ptr ∧
        Rob.deref h2 r2 = some (tclone v) ∧
        Rob.deref h2 r = some v ∧
        h2.dropCount = h.dropCount) ∧
      (tclone v = v → Rob.deref h2 r2 = some v) := by
  cases ho : r.is_owned with
  | false =>
    refine ⟨h, Rob.from_ref r.ptr, ?_, ?_, ?_, ?_, ?_⟩
    · simp [Rob.clone, ho]
    · simp [Rob.from_ref, ho]
    · intro
      exact ⟨rfl, rfl, hv⟩
    · intro hcontra
      exact absurd hcontra (by simp)
    · intro
      exact hv
  | true =>
    have hlt : r.ptr < h.next := lookup_some_lt h.mem r.ptr h.next v hwf hv
    refine ⟨(h.alloc (tclone v)).1, ⟨h.next, true⟩, ?_, ?_, ?_, ?_, ?_⟩
    · simp [Rob.clone, ho, hv, Rob.from_value, Rob.from_box, Heap.alloc]
    · simp [ho]
    · intro hcontra
      exact absurd hcontra (by simp)
    · intro
      exact ⟨Nat.ne_of_gt hlt, read_alloc_self h (tclone v),
        read_alloc_live h (tclone v) v r.ptr hwf hv, rfl⟩
    · intro hcl
      have h1 : Rob.deref (h.alloc (tclone v)).1 ⟨h.next, true⟩ =
          some (tclone v) := read_alloc_self h (tclone v)
      rw [h1, hcl]

/-- Witness for C7: cloning an owned container over the cell 1 ↦ 4 with the
identity clone allocates address 2, stays owned, and both cells read 4. -/
theorem clone_spec_witness :
    (Heap.mk [(1, (4 : Nat))] 2 0).wf ∧
    (Heap.mk [(1, (4 : Nat))] 2 0).read 1 = some 4 ∧
    ∃ h2 r2,
      Rob.clone id (Heap.mk [(1, (4 : Nat))] 2 0) (Rob.mk 1 true) =
        some (h2, r2) ∧
      r2.is_owned = true ∧
      ((Rob.mk 1 true).is_owned = false →
        h2 = Heap.mk [(1, (4 : Nat))] 2 0 ∧ r2.ptr = 1 ∧
          Rob.deref h2 r2 = some 4) ∧
      ((Rob.mk 1 true).is_owned = true →
        r2.ptr ≠ 1 ∧
        Rob.deref h2 r2 = some (id 4) ∧
        Rob.deref h2 (Rob.mk 1 true) = some 4 ∧
        h2.dropCount = 0) ∧
      (id 4 = 4 → Rob.deref h2 r2 = some 4) :=
  ⟨by decide, by decide,
    clone_spec id (Heap.mk [(1, (4 : Nat))] 2 0) (Rob.mk 1 true) 4
      (by decide) (by decide)⟩

/-- Claim C8: frame property.  The copy-on-write upgrade inside `to_mut` is
the only reassignment of the pointer and flag: on an owned container
`to_mut` changes nothing (same heap, same struct); on a borrowed container
it flips the flag false → true exactly once — the returned container is
owned, so running `to_mut` again is the identity — and the only heap change
is the one fresh cell for the clone: the new address was not live before
(the upgraded container is its sole owner), the old referent is intact, and
every other address reads exactly as before.  The non-mutating operations
never receive the container writably: in this model they are pure functions
that return no container and no heap, so they cannot reassign either
field. -/
theorem frame_spec {α : Type} (toOwned : α → α) (h : Heap α) (r : Rob)
    (v : α) (hwf : h.wf) (hv : h.read r.ptr = some v) :
    (r.is_owned = true → Rob.to_mut toOwned h r = some (h, r, r.ptr)) ∧
    (r.is_owned = false →
      ∃ h2 r2, Rob.to_mut toOwned h r = some (h2, r2, r2.ptr) ∧
        r2.is_owned = true ∧
        h.read r2.ptr = none ∧
        h2.read r.ptr = some v ∧
        (∀ q, q ≠ r2.ptr → h2.read q = h.read q) ∧
        h2.mem.length = h.mem.length + 1 ∧
        Rob.to_mut toOwned h2 r2 = some (h2, r2, r2.ptr)) := by
  constructor
  · intro ho
    simp [Rob.to_mut, ho]
  · intro ho
    refine ⟨(h.alloc (toOwned v)).1, ⟨(h.alloc (toOwned v)).2, true⟩,
      ?_, rfl, ?_, ?_, ?_, rfl, ?_⟩
    · simp [Rob.to_mut, ho, hv]
    · exact read_next_none h hwf
    · exact read_alloc_live h (toOwned v) v r.ptr hwf hv
    · intro q hq
      exact read_alloc_other h (toOwned v) q hq
    · simp [Rob.to_mut]

/-- Witness for C8: upgrading a borrowed container over the cell 1 ↦ 6
allocates only address 2, leaves address 1 (and every other address)
untouched, and a second `to_mut` is the identity. -/
theorem frame_spec_witness :
    (Heap.mk [(1, (6 : Nat))] 2 0).wf ∧
    (Heap.mk [(1, (6 : Nat))] 2 0).read 1 = some 6 ∧
    ∃ h2 r2,
      Rob.to_mut id (Heap.mk [(1, (6 : Nat))] 2 0) (Rob.mk 1 false) =
        some (h2, r2, r2.ptr) ∧
      r2.is_owned = true ∧
      (Heap.mk [(1, (6 : Nat))] 2 0).read r2.ptr = none ∧
      h2.read 1 = some 6 ∧
      (∀ q, q ≠ r2.ptr →
        h2.read q = (Heap.mk [(1, (6 : Nat))] 2 0).read q) ∧
      h2.mem.length = (Heap.mk [(1, (6 : Nat))] 2 0).mem.length + 1 ∧
      Rob.to_mut id h2 r2 = some (h2, r2, r2.ptr) :=
  ⟨by decide, by decide,
    (frame_spec id (Heap.mk [(1, (6 : Nat))] 2 0) (Rob.mk 1 false) 6
      (by decide) (by decide)).2 rfl⟩

end RobModel
